import Mathlib

/-!
Shallow embedding of the OverlapPredator inference service
(`service/predator_server.py`, `web_pointcloud_visualizer.py`).

Floating-point scores and coordinates are modelled as rationals (`ℚ`);
numpy / torch operations that raise are modelled as `Option`/`Except`
returning `none`/`.error`.  Randomized selection is modelled with an
injected random source (`rng : List ℕ`), following §9 of the design notes
("model explicitly as pure functions taking an injectable random source").
-/

namespace Predator

/-- A raw 3-D point (one `[x, y, z]` triple from a request). -/
abbrev Point3 := ℚ × ℚ × ℚ

/-! Scoring combiner — `predator_server.py` lines 156–158

`src_scores = src_overlap * src_saliency` is an elementwise product of two
1-D torch tensors.  Torch succeeds on equal lengths, broadcasts when one
operand has length 1, and raises a shape error otherwise (modelled `none`).
It performs no validation of the score values themselves.  It is a pure
function of its operands: the input tensors are not modified. -/
def torchMul (a b : List ℚ) : Option (List ℚ) :=
  if a.length = b.length then some (List.zipWith (fun x y => x * y) a b)
  else if a.length = 1 then some (b.map (fun y => a.headD 0 * y))
  else if b.length = 1 then some (a.map (fun x => x * b.headD 0))
  else none

/-! Model of `np.random.choice(idx, size=K, replace=False, p=probs)` —
used at `predator_server.py` lines 160–172.

numpy validates the probability vector (correct length, non-negative
entries, total mass 1 — a NaN entry fails these checks), requires
`K ≤ n` for `replace=False`, and requires at least `K` entries of `p`
to be non-zero; any violation raises `ValueError` (modelled `none`).
The draw itself repeatedly picks one of the remaining positive-probability
indices, driven by the injected random source. -/

/-- Indices of the strictly positive entries of a probability vector. -/
def posIndices (p : List ℚ) : List ℕ :=
  (List.range p.length).filter (fun i => decide (0 < p.getD i 0))

/-- Draw `K` elements from the candidate list `avail`, without
replacement: each step picks the `r`-th remaining candidate (where `r`
is the next random value reduced mod the number of candidates) and
removes it from the pool. -/
def drawDistinct : List ℕ → List ℕ → ℕ → List ℕ
  | _, _, 0 => []
  | rng, avail, Nat.succ k =>
      let e := avail.getD (rng.headD 0 % avail.length) 0
      e :: drawDistinct rng.tail (avail.erase e) k

/-- The index list produced by a successful
`np.random.choice(..., size=K, replace=False, p=probs)` call. -/
def subsampleIdx (rng : List ℕ) (K : ℕ) (probs : List ℚ) : List ℕ :=
  drawDistinct rng (posIndices probs) K

/-- Model of `np.random.choice(np.arange(n), size=K, replace=False, p=p)`;
the result `none` models a raised `ValueError`. -/
def npChoice (rng : List ℕ) (n K : ℕ) (p : List ℚ) : Option (List ℕ) :=
  if p.length = n ∧ (∀ x ∈ p, 0 ≤ x) ∧ p.sum = 1 ∧ K ≤ n ∧ K ≤ (posIndices p).length
  then some (subsampleIdx rng K p) else none

/-! Weighted subsampling step — `predator_server.py` lines 160–172

```
if src_pcd.size(0) > config.n_points:
    idx = np.arange(src_pcd.size(0))
    probs = (src_scores / src_scores.sum()).numpy().flatten()
    idx = np.random.choice(idx, size=config.n_points, replace=False, p=probs)
    src_pcd = src_pcd[idx]
    src_feats = src_feats[idx]
```
The same block is repeated for the target cloud.  `config.n_points` is an
integer read from the config file (no validation), hence `K : ℤ`.  When
`scores.sum = 0` the float division produces NaN entries, which
`np.random.choice` rejects; here `w / 0 = 0` and the vector is rejected by
the total-mass-1 check — both model the raised `ValueError` as `none`.
A negative `size` makes numpy raise `negative dimensions are not allowed`. -/
def subsampleCloud {P F : Type} [Inhabited P] [Inhabited F]
    (rng : List ℕ) (K : ℤ) (pcd : List P) (feats : List F) (scores : List ℚ) :
    Option (List P × List F) :=
  if K < (pcd.length : ℤ) then
    if K < 0 then none
    else
      match npChoice rng pcd.length K.toNat (scores.map (fun w => w / scores.sum)) with
      | none => none
      | some idx =>
          some (idx.map (fun i => pcd.getD i default),
                idx.map (fun i => feats.getD i default))
  else some (pcd, feats)

/-! Request boundary — `predator_server.py` lines 107–127 and 209–218

`do_POST` parses the JSON body, reads `data["src"]` / `data["tgt"]`, and
calls `predator_infer` directly — there is no input validation and no
`InvalidInputError` anywhere in the program.  `predator_infer` immediately
builds a `ThreeDMatchDemo` dataset and iterates its loader; the first
thing executed on the clouds is `ThreeDMatchDemo.__getitem__` (lines
80–102), whose `src_feats = np.ones_like(src_pcd[:, :1])` (and the same
for `tgt`) raises `IndexError` on an empty cloud, because
`np.asarray([], dtype=np.float32)` is 1-dimensional and cannot be indexed
with `[:, :1]`. -/

/-- The two kinds of failure relevant to the boundary claim:
`invalidInput` is the error the spec postulates (never raised by the
code), `indexError` is what actually escapes for an empty cloud. -/
inductive ServiceError where
  | invalidInput
  | indexError
deriving DecidableEq

/-- Embedding of `ThreeDMatchDemo.__getitem__` (lines 80–102): returns the two clouds
together with the all-ones feature columns `np.ones_like(src_pcd[:, :1])`;
raises `IndexError` when either cloud is empty. -/
def demoGetitem (src tgt : List Point3) :
    Except ServiceError (List Point3 × List Point3 × List ℚ × List ℚ) :=
  if src.isEmpty ∨ tgt.isEmpty then .error .indexError
  else .ok (src, tgt, src.map (fun _ => 1), tgt.map (fun _ => 1))

/-- The request path up to (and including) the first access to the
submitted clouds: `do_POST` extracts `src`/`tgt` and calls
`predator_infer`, which performs no validation before dataset
construction and data loading (`inputs = next(c_loader_iter)` triggers
`__getitem__`). -/
def requestPrelude (src tgt : List Point3) :
    Except ServiceError (List Point3 × List Point3 × List ℚ × List ℚ) :=
  demoGetitem src tgt

/-! Result packaging — `predator_server.py` lines 174–195

`ransac_pose_estimation` lives in `lib/benchmark_utils.py`, which is not
part of the served sources; it is modelled from the spec below.  The
packaging code itself is lines 183–195: a `None` estimate becomes
`{"transform": None}`, anything else is converted to a numpy array and
returned as `{"transform": tsfm.tolist()}`. -/

/-- Modelled from the spec: the missing
`lib.benchmark_utils.ransac_pose_estimation` returns either `None`
("no solution") or a `RigidTransform` — "rotation (3×3 ...) and
translation (3-vector), together forming a 4×4 homogeneous matrix"
(spec §3, §4.4, §4.5). -/
structure RigidTransform where
  rot : Fin 3 → Fin 3 → ℚ
  trans : Fin 3 → ℚ

/-- The 4×4 homogeneous matrix of a rigid transform, in row-major nested
lists as produced by `tsfm.tolist()`. -/
def RigidTransform.toMatrix4 (T : RigidTransform) : List (List ℚ) :=
  [[T.rot 0 0, T.rot 0 1, T.rot 0 2, T.trans 0],
   [T.rot 1 0, T.rot 1 1, T.rot 1 2, T.trans 1],
   [T.rot 2 0, T.rot 2 1, T.rot 2 2, T.trans 2],
   [0, 0, 0, 1]]

/-- The JSON response body: a dict with the single key `"transform"`,
holding either a nested list of floats (`success`) or `null`
(`nullTransform`). -/
inductive TransformResponse where
  | success (matrix : List (List ℚ))
  | nullTransform
deriving DecidableEq

/-- Lines 183–195 of `predator_infer`: package the estimator's result. -/
def packageResult (tsfm : Option RigidTransform) : TransformResponse :=
  match tsfm with
  | none => .nullTransform
  | some T => .success T.toMatrix4

/-! Splitting the stacked model outputs — `predator_server.py`
lines 140–158: `src_x = x[:len_src]`, `tgt_x = x[len_src:]` is applied
with the same `len_src` to the stacked points, features, overlap scores
and saliency scores. -/

/-- The split `x[:k], x[k:]` applied (with `k = len_src`) to each of
the four stacked per-point arrays. -/
def splitStacked {α : Type} (k : ℕ) (l : List α) : List α × List α :=
  (l.take k, l.drop k)

end Predator

namespace Visualizer

/-! Embedding of `web_pointcloud_visualizer.py`, `load_test_results`. -/

/-- Lines 59–61: `src_points = src_pcd[::downsample_factor]` — numpy
basic slicing with stride `d ≥ 1`: keep the head, then continue after
skipping the next `d - 1` elements. -/
def strided {α : Type} (d : ℕ) : List α → List α
  | [] => []
  | x :: xs => x :: strided d (List.drop (d - 1) xs)
  termination_by l => l.length
  decreasing_by simp [List.length_drop]; omega

/-- Lines 63–66:
```
transform_matrix = np.eye(4)
transform_matrix[:3, :3] = rot
transform_matrix[:3, 3] = trans.flatten()
```
written out entrywise: rows 0–2 are `rot` columns followed by the
`trans` entry; row 3 keeps `np.eye(4)`'s `[0, 0, 0, 1]`. -/
def transformMatrix (rot : Fin 3 → Fin 3 → ℚ) (trans : Fin 3 → ℚ) :
    Fin 4 → Fin 4 → ℚ :=
  ![![rot 0 0, rot 0 1, rot 0 2, trans 0],
    ![rot 1 0, rot 1 1, rot 1 2, trans 1],
    ![rot 2 0, rot 2 1, rot 2 2, trans 2],
    ![0, 0, 0, 1]]

/-- The homogeneous coordinate vector `(p, 1)` of a 3-D point. -/
def homVec (p : Fin 3 → ℚ) : Fin 4 → ℚ :=
  ![p 0, p 1, p 2, 1]

/-- Matrix–vector product: a 4×4 matrix applied to the homogeneous
vector of a point. -/
def homApply (M : Fin 4 → Fin 4 → ℚ) (p : Fin 3 → ℚ) : Fin 4 → ℚ :=
  fun i => ∑ j : Fin 4, M i j * homVec p j

/-- One column `rot @ p + trans` of line 69's
`(rot @ src_points.T + trans)` (broadcasting `trans` over columns). -/
def rigidApply (rot : Fin 3 → Fin 3 → ℚ) (trans : Fin 3 → ℚ)
    (p : Fin 3 → ℚ) : Fin 3 → ℚ :=
  fun i => (∑ j : Fin 3, rot i j * p j) + trans i

/-- Line 69: `src_transformed = (rot @ src_points.T + trans).T` — each
row of the result is `rot @ p + trans` for the corresponding point `p`. -/
def srcTransformed (rot : Fin 3 → Fin 3 → ℚ) (trans : Fin 3 → ℚ)
    (pts : List (Fin 3 → ℚ)) : List (Fin 3 → ℚ) :=
  pts.map (rigidApply rot trans)

end Visualizer



namespace Predator

/-! Helper lemmas about `getD`, `drawDistinct` and `posIndices`. -/

/-- Evaluating `getD` inside the bounds gives the list element. -/
theorem getD_eq_get {α : Type} :
    ∀ (l : List α) (r : ℕ) (d : α) (h : r < l.length), l.getD r d = l.get ⟨r, h⟩
  | _ :: _, 0, _, _ => rfl
  | _ :: l, r + 1, d, h => getD_eq_get l r d (by simpa using h)

/-- Evaluating `getD` inside the bounds gives a member of the list. -/
theorem getD_mem {α : Type} (l : List α) (r : ℕ) (d : α) (h : r < l.length) :
    l.getD r d ∈ l := by
  rw [getD_eq_get l r d h]
  exact List.get_mem l r h

theorem drawDistinct_length :
    ∀ (rng avail : List ℕ) (K : ℕ), K ≤ avail.length →
      (drawDistinct rng avail K).length = K
  | _, _, 0, _ => rfl
  | rng, avail, K + 1, h => by
    have hpos : 0 < avail.length := by omega
    have hr : rng.headD 0 % avail.length < avail.length := Nat.mod_lt _ hpos
    have hmem : avail.getD (rng.headD 0 % avail.length) 0 ∈ avail :=
      getD_mem _ _ _ hr
    have herase : (avail.erase (avail.getD (rng.headD 0 % avail.length) 0)).length
        = avail.length - 1 := List.length_erase_of_mem hmem
    simp only [drawDistinct, List.length_cons]
    rw [drawDistinct_length rng.tail _ K (by omega)]

theorem drawDistinct_subset :
    ∀ (rng avail : List ℕ) (K : ℕ), K ≤ avail.length →
      ∀ x ∈ drawDistinct rng avail K, x ∈ avail
  | _, _, 0, _ => by simp [drawDistinct]
  | rng, avail, K + 1, h => by
    have hpos : 0 < avail.length := by omega
    have hr : rng.headD 0 % avail.length < avail.length := Nat.mod_lt _ hpos
    have hmem : avail.getD (rng.headD 0 % avail.length) 0 ∈ avail :=
      getD_mem _ _ _ hr
    have herase : (avail.erase (avail.getD (rng.headD 0 % avail.length) 0)).length
        = avail.length - 1 := List.length_erase_of_mem hmem
    intro x hx
    simp only [drawDistinct, List.mem_cons] at hx
    rcases hx with hx | hx
    · exact hx ▸ hmem
    · exact List.erase_subset _ _
        (drawDistinct_subset rng.tail _ K (by omega) x hx)

theorem drawDistinct_nodup :
    ∀ (rng avail : List ℕ) (K : ℕ), avail.Nodup → K ≤ avail.length →
      (drawDistinct rng avail K).Nodup
  | _, _, 0, _, _ => List.nodup_nil
  | rng, avail, K + 1, hnd, h => by
    have hpos : 0 < avail.length := by omega
    have hr : rng.headD 0 % avail.length < avail.length := Nat.mod_lt _ hpos
    have hmem : avail.getD (rng.headD 0 % avail.length) 0 ∈ avail :=
      getD_mem _ _ _ hr
    have herase : (avail.erase (avail.getD (rng.headD 0 % avail.length) 0)).length
        = avail.length - 1 := List.length_erase_of_mem hmem
    simp only [drawDistinct, List.nodup_cons]
    refine ⟨fun hin => ?_, drawDistinct_nodup rng.tail _ K (hnd.erase _) (by omega)⟩
    have : avail.getD (rng.headD 0 % avail.length) 0
        ∈ avail.erase (avail.getD (rng.headD 0 % avail.length) 0) :=
      drawDistinct_subset rng.tail _ K (by omega) _ hin
    exact ((hnd.mem_erase_iff).mp this).1 rfl

theorem posIndices_nodup (p : List ℚ) : (posIndices p).Nodup :=
  List.Nodup.filter (fun i => decide (0 < p.getD i 0)) (List.nodup_range p.length)

theorem mem_posIndices_lt (p : List ℚ) {i : ℕ} (h : i ∈ posIndices p) :
    i < p.length := by
  have := List.mem_filter.mp h
  simpa using List.mem_range.mp this.1

end Predator

namespace Predator

theorem sum_map_div (l : List ℚ) (s : ℚ) :
    (l.map (fun w => w / s)).sum = l.sum / s := by
  induction l with
  | nil => simp
  | cons x xs ih => simp [ih, add_div]

/-- Normalizing by a positive total does not change which entries are
strictly positive. -/
theorem posIndices_map_div (l : List ℚ) {s : ℚ} (hs : 0 < s) :
    posIndices (l.map (fun w => w / s)) = posIndices l := by
  unfold posIndices
  rw [List.length_map]
  refine List.filter_congr fun i hi => ?_
  have hi' : i < l.length := List.mem_range.mp hi
  refine decide_eq_decide.mpr ?_
  rw [getD_eq_get _ _ _ (by simpa using hi'), getD_eq_get _ _ _ hi']
  have hmap : (l.map (fun w => w / s)).get ⟨i, by simpa using hi'⟩
      = l.get ⟨i, hi'⟩ / s := by
    simp
  rw [hmap]
  constructor
  · intro h
    rcases div_pos_iff.mp h with ⟨h1, _⟩ | ⟨_, h2⟩
    · exact h1
    · exact absurd hs (not_lt.mpr (le_of_lt h2))
  · intro h
    exact div_pos h hs

theorem npChoice_some (rng : List ℕ) (n K : ℕ) (p : List ℚ)
    (h1 : p.length = n) (h2 : ∀ x ∈ p, 0 ≤ x) (h3 : p.sum = 1)
    (h4 : K ≤ n) (h5 : K ≤ (posIndices p).length) :
    npChoice rng n K p = some (subsampleIdx rng K p) := by
  rw [npChoice, if_pos ⟨h1, h2, h3, h4, h5⟩]

/-- Shared success case of the sampling branch: with a positive weight
total, non-negative weights and enough positive entries, the numpy call
succeeds and the cloud/features are indexed by the drawn index list. -/
theorem subsampleCloud_eq_some {P F : Type} [Inhabited P] [Inhabited F]
    (rng : List ℕ) (K : ℤ) (pcd : List P) (feats : List F) (scores : List ℚ)
    (hN : K < (pcd.length : ℤ)) (hK : 0 ≤ K)
    (hlen : scores.length = pcd.length) (hnn : ∀ x ∈ scores, 0 ≤ x)
    (hsum : 0 < scores.sum) (hpos : K.toNat ≤ (posIndices scores).length) :
    subsampleCloud rng K pcd feats scores =
      some ((subsampleIdx rng K.toNat (scores.map (fun w => w / scores.sum))).map
              (fun i => pcd.getD i default),
            (subsampleIdx rng K.toNat (scores.map (fun w => w / scores.sum))).map
              (fun i => feats.getD i default)) := by
  have hs : scores.sum ≠ 0 := ne_of_gt hsum
  have hlen' : (scores.map (fun w => w / scores.sum)).length = pcd.length := by
    rw [List.length_map, hlen]
  have hnn' : ∀ x ∈ scores.map (fun w => w / scores.sum), 0 ≤ x := by
    intro x hx
    rcases List.mem_map.mp hx with ⟨w, hw, rfl⟩
    exact div_nonneg (hnn w hw) (le_of_lt hsum)
  have hsum1 : (scores.map (fun w => w / scores.sum)).sum = 1 := by
    rw [sum_map_div, div_self hs]
  have hKn : K.toNat ≤ pcd.length := by omega
  have hK5 : K.toNat ≤ (posIndices (scores.map (fun w => w / scores.sum))).length := by
    rw [posIndices_map_div scores hsum]; exact hpos
  unfold subsampleCloud
  rw [if_pos hN, if_neg (by omega : ¬ K < 0),
    npChoice_some rng pcd.length K.toNat _ hlen' hnn' hsum1 hKn hK5]

/-- Shared properties of the drawn index list: exactly `K` entries, all
distinct, all valid positions of the weight vector. -/
theorem subsampleIdx_spec (rng : List ℕ) (K : ℕ) (scores : List ℚ)
    (hsum : 0 < scores.sum) (hpos : K ≤ (posIndices scores).length) :
    (subsampleIdx rng K (scores.map (fun w => w / scores.sum))).length = K ∧
    (subsampleIdx rng K (scores.map (fun w => w / scores.sum))).Nodup ∧
    ∀ i ∈ subsampleIdx rng K (scores.map (fun w => w / scores.sum)),
      i < scores.length := by
  have hrw : posIndices (scores.map (fun w => w / scores.sum)) = posIndices scores :=
    posIndices_map_div scores hsum
  unfold subsampleIdx
  rw [hrw]
  refine ⟨drawDistinct_length _ _ _ hpos,
          drawDistinct_nodup _ _ _ (posIndices_nodup _) hpos, ?_⟩
  intro i hi
  exact mem_posIndices_lt scores (drawDistinct_subset _ _ _ hpos i hi)

end Predator

namespace Predator

/-- C1 (as stated) is false: with all combined weights zero and `N > K`
the sampling step does not fall back to uniform probabilities — at the
concrete cloud of three points with weights `[0, 0, 0]` and target `K = 2`
the probability vector is undefined (`0/0` per entry) and
`np.random.choice` raises, modelled as `none`, so sampling does not
succeed. -/
theorem zeroWeight_counterexample :
    subsampleCloud ([] : List ℕ) 2 [(10 : ℕ), 20, 30] [(5 : ℕ), 6, 7]
      [0, 0, 0] = none := by
  norm_num [subsampleCloud, npChoice, posIndices, subsampleIdx, drawDistinct]

/-- C1 amended: for every cloud whose combined weights sum to 0 and whose
size exceeds the target `K`, the weighted subsampling step fails (the
normalized probability vector is undefined and the draw raises); there is
no uniform fallback. -/
theorem zeroWeight_sampling_fails {P F : Type} [Inhabited P] [Inhabited F]
    (rng : List ℕ) (K : ℤ) (pcd : List P) (feats : List F) (scores : List ℚ)
    (hN : K < (pcd.length : ℤ)) (h0 : scores.sum = 0) :
    subsampleCloud rng K pcd feats scores = none := by
  unfold subsampleCloud
  rw [if_pos hN]
  by_cases hK : K < 0
  · rw [if_pos hK]
  · rw [if_neg hK]
    have hnone : npChoice rng pcd.length K.toNat
        (scores.map (fun w => w / scores.sum)) = none := by
      rw [npChoice, if_neg]
      rintro ⟨-, -, h3, -, -⟩
      rw [sum_map_div, h0, zero_div] at h3
      exact absurd h3 (by norm_num)
    rw [hnone]

/-- Witness for the amended C1 at a concrete input. -/
theorem zeroWeight_sampling_fails_witness :
    subsampleCloud ([] : List ℕ) 3 [(1 : ℕ), 2, 3, 4] [(9 : ℕ), 8, 7, 6]
      [0, 0, 0, 0] = none :=
  zeroWeight_sampling_fails [] 3 [1, 2, 3, 4] [9, 8, 7, 6] [0, 0, 0, 0]
    (by decide) (by simp)

/-- C3 (as stated) is false: the subsampler does not return `min(N, K)`
points "in all cases" with `N > K` — with weights `[1, 0, 0]` (fewer than
`K = 2` non-zero entries) `np.random.choice(..., replace=False, p=probs)`
raises `ValueError` and the step produces no sample at all. -/
theorem subsampler_partial_counterexample :
    subsampleCloud ([] : List ℕ) 2 [(10 : ℕ), 20, 30] [(5 : ℕ), 6, 7]
      [1, 0, 0] = none := by
  norm_num [subsampleCloud, npChoice, posIndices, subsampleIdx, drawDistinct,
    List.range_succ, List.range_zero, List.filter_append, List.filter_cons,
    List.filter_nil]

/-- C3 amended: if `N ≤ K` the subsampler returns the cloud and features
unchanged; if `N > K` and the weight vector is non-negative with positive
sum and at least `K` positive entries, it returns exactly `K` points
selected at pairwise-distinct valid indices, and each selected point is
paired with the feature vector at the same original index (the same drawn
index list is applied to both arrays). -/
theorem subsampler_contract {P F : Type} [Inhabited P] [Inhabited F]
    (rng : List ℕ) (K : ℤ) (pcd : List P) (feats : List F) (scores : List ℚ) :
    (¬ K < (pcd.length : ℤ) →
      subsampleCloud rng K pcd feats scores = some (pcd, feats)) ∧
    (K < (pcd.length : ℤ) → 0 ≤ K → scores.length = pcd.length →
      (∀ x ∈ scores, 0 ≤ x) → 0 < scores.sum →
      K.toNat ≤ (posIndices scores).length →
      (subsampleIdx rng K.toNat (scores.map (fun w => w / scores.sum))).length
          = K.toNat ∧
      (subsampleIdx rng K.toNat (scores.map (fun w => w / scores.sum))).Nodup ∧
      (subsampleIdx rng K.toNat (scores.map (fun w => w / scores.sum))).all
          (fun i => decide (i < pcd.length)) = true ∧
      subsampleCloud rng K pcd feats scores =
        some ((subsampleIdx rng K.toNat (scores.map (fun w => w / scores.sum))).map
                (fun i => pcd.getD i default),
              (subsampleIdx rng K.toNat (scores.map (fun w => w / scores.sum))).map
                (fun i => feats.getD i default))) := by
  constructor
  · intro h
    unfold subsampleCloud
    rw [if_neg h]
  · intro hN hK hlen hnn hsum hpos
    obtain ⟨h1, h2, h3⟩ := subsampleIdx_spec rng K.toNat scores hsum hpos
    refine ⟨h1, h2, ?_, subsampleCloud_eq_some rng K pcd feats scores hN hK hlen hnn hsum hpos⟩
    rw [List.all_eq_true]
    intro i hi
    have : i < pcd.length := hlen ▸ h3 i hi
    simpa using this

end Predator

namespace Predator

/-- Witness for the amended C3: the identity branch at `N = 1 ≤ K = 5`,
and a full weighted draw at `N = 3 > K = 2` (random source `[0]` selects
indices 0 and 1, pairing points `10, 20` with features `5, 6`). -/
theorem subsampler_contract_witness :
    subsampleCloud ([] : List ℕ) 5 [(10 : ℕ)] [(5 : ℕ)] [1] = some ([10], [5]) ∧
    subsampleCloud [0] 2 [(10 : ℕ), 20, 30] [(5 : ℕ), 6, 7] [1, 1, 2]
      = some ([10, 20], [5, 6]) := by
  constructor
  · exact (subsampler_contract [] 5 [10] [5] [1]).1 (by decide)
  · refine Eq.trans
      (((subsampler_contract [0] 2 [(10 : ℕ), 20, 30] [(5 : ℕ), 6, 7] [1, 1, 2]).2
        (by decide) (by decide) (by decide)
        (by norm_num [List.forall_mem_cons])
        (by norm_num [List.sum_cons])
        (by norm_num [posIndices, List.range_succ, List.range_zero,
          List.filter_append, List.filter_cons, List.filter_nil])).2.2.2) ?_
    norm_num [subsampleIdx, posIndices, drawDistinct, List.range_succ,
      List.range_zero, List.filter_append, List.filter_cons, List.filter_nil]

/-- C7 (as stated) is false: a non-positive target size is not rejected —
with `K = 0` and a valid weight vector the subsampler silently succeeds,
returning an empty selection instead of failing with any configuration
error. -/
theorem nonpositiveK_counterexample :
    subsampleCloud ([] : List ℕ) 0 [(10 : ℕ)] [(5 : ℕ)] [1] = some ([], []) := by
  norm_num [subsampleCloud, npChoice, posIndices, subsampleIdx, drawDistinct,
    List.range_succ, List.range_zero, List.filter_append, List.filter_cons,
    List.filter_nil]

/-- C7 amended: `K ≤ 0` is never rejected as invalid configuration. With
`K = 0` (and a non-empty cloud with valid weights) the subsampler silently
returns an empty selection; with `K < 0` the numpy draw raises
`ValueError: negative dimensions are not allowed` — in neither case is an
`InvalidConfigError` produced (none exists in the program). -/
theorem nonpositiveK_behavior :
    (∀ {P F : Type} [Inhabited P] [Inhabited F] (rng : List ℕ)
        (pcd : List P) (feats : List F) (scores : List ℚ),
        pcd ≠ [] → scores.length = pcd.length → (∀ x ∈ scores, 0 ≤ x) →
        0 < scores.sum →
        subsampleCloud rng 0 pcd feats scores = some ([], [])) ∧
    (∀ {P F : Type} [Inhabited P] [Inhabited F] (rng : List ℕ) (K : ℤ)
        (pcd : List P) (feats : List F) (scores : List ℚ),
        K < 0 → subsampleCloud rng K pcd feats scores = none) := by
  constructor
  · intro P F _ _ rng pcd feats scores hne hlen hnn hsum
    have hpos : 0 < pcd.length := List.length_pos.mpr hne
    exact subsampleCloud_eq_some rng 0 pcd feats scores
      (by exact_mod_cast hpos) le_rfl hlen hnn hsum (by simp)
  · intro P F _ _ rng K pcd feats scores hK
    unfold subsampleCloud
    rw [if_pos (by have : (0 : ℤ) ≤ (pcd.length : ℤ) := Int.ofNat_nonneg _; omega),
      if_pos hK]

/-- Witness for the amended C7 at concrete inputs: `K = 0` silently
yields the empty sample, `K = -3` fails. -/
theorem nonpositiveK_behavior_witness :
    subsampleCloud ([] : List ℕ) 0 [(10 : ℕ), 20] [(5 : ℕ), 6] [1, 1]
      = some ([], []) ∧
    subsampleCloud ([] : List ℕ) (-3) [(10 : ℕ)] [(5 : ℕ)] [1] = none := by
  constructor
  · exact nonpositiveK_behavior.1 [] [10, 20] [5, 6] [1, 1]
      (by decide) (by decide) (by norm_num [List.forall_mem_cons])
      (by norm_num [List.sum_cons])
  · exact nonpositiveK_behavior.2 [] (-3) [10] [5] [1] (by decide)

end Predator

namespace Predator

/-- C2: the orchestrator's result always carries the single key
`"transform"`; it is `null` exactly when the RANSAC estimator returned
`None` (no exception is raised), and otherwise a complete 4×4 row-major
matrix — every row list has length 4 and there are exactly 4 rows, never
a partial or malformed matrix. -/
theorem packageResult_wellFormed :
    (∀ t : Option RigidTransform,
      (packageResult t = TransformResponse.nullTransform ↔ t = none)) ∧
    (∀ T : RigidTransform,
      packageResult (some T) = TransformResponse.success T.toMatrix4 ∧
      T.toMatrix4.length = 4 ∧
      T.toMatrix4.map List.length = [4, 4, 4, 4]) := by
  constructor
  · intro t
    cases t <;> simp [packageResult]
  · intro T
    exact ⟨rfl, rfl, rfl⟩

/-- C4: the combined sampling weight of each point is the product of that
point's overlap score and saliency score, computed per point.  The
embedding is a pure function — the input score lists are not modified. -/
theorem combiner_elementwise (o s : List ℚ) (h : o.length = s.length) :
    torchMul o s = some (List.zipWith (fun x y => x * y) o s) ∧
    ∀ i, i < o.length →
      (List.zipWith (fun x y => x * y) o s).getD i 0 = o.getD i 0 * s.getD i 0 := by
  refine ⟨by rw [torchMul, if_pos h], ?_⟩
  intro i hi
  have hzip : i < (List.zipWith (fun x y : ℚ => x * y) o s).length := by
    rw [List.length_zipWith]; omega
  rw [getD_eq_get _ _ _ hzip, getD_eq_get _ _ _ hi, getD_eq_get _ _ _ (h ▸ hi)]
  simp

/-- Witness for C4 at a concrete pair of score lists. -/
theorem combiner_elementwise_witness :
    torchMul [(1 : ℚ)/2] [(1 : ℚ)/3]
      = some (List.zipWith (fun x y => x * y) [(1 : ℚ)/2] [(1 : ℚ)/3]) ∧
    (List.zipWith (fun x y => x * y) [(1 : ℚ)/2] [(1 : ℚ)/3]).getD 0 0
      = ([(1 : ℚ)/2].getD 0 0) * ([(1 : ℚ)/3].getD 0 0) :=
  ⟨(combiner_elementwise [(1 : ℚ)/2] [(1 : ℚ)/3] rfl).1,
   (combiner_elementwise [(1 : ℚ)/2] [(1 : ℚ)/3] rfl).2 0 (by decide)⟩

/-- C5 (as stated) is false: an empty submitted cloud is not rejected at
the boundary with `InvalidInputError` — no such error exists in the
program; the request proceeds into dataset construction, whose feature
computation raises `IndexError` instead. -/
theorem boundary_counterexample :
    ¬ (requestPrelude [] [((0 : ℚ), 0, 0)]
        = Except.error ServiceError.invalidInput) := by
  simp [requestPrelude, demoGetitem]

/-- C5 amended: an empty point cloud (on either side) is not validated at
the orchestrator boundary; it flows into `ThreeDMatchDemo` and fails
during data loading with an `IndexError` from the feature computation,
not with an `InvalidInputError`. -/
theorem emptyCloud_indexError (src tgt : List Point3)
    (h : src = [] ∨ tgt = []) :
    requestPrelude src tgt = Except.error ServiceError.indexError := by
  rcases h with h | h <;> subst h <;> simp [requestPrelude, demoGetitem]

/-- Witness for the amended C5 at a concrete request. -/
theorem emptyCloud_indexError_witness :
    requestPrelude [] [((1 : ℚ), 2, 3)] = Except.error ServiceError.indexError :=
  emptyCloud_indexError [] [((1 : ℚ), 2, 3)] (Or.inl rfl)

/-- C6 (as stated) is false: a score outside `[0, 1]` is not rejected —
the combiner happily multiplies it; at overlap `[2]`, saliency `[1]`
(score 2 lies outside `[0, 1]`) the result is `some [2]`, not a failure
(no `InvalidScoreError` exists in the program). -/
theorem combiner_range_counterexample :
    torchMul [(2 : ℚ)] [1] = some [2] := by
  norm_num [torchMul]

/-- C6 amended: the scoring combiner performs no range validation — it
never fails on equal-length inputs, whatever the score values; it fails
only on a non-broadcastable length mismatch, via the underlying tensor
shape error rather than an `InvalidScoreError`. -/
theorem combiner_failure_behavior :
    (∀ o s : List ℚ, o.length = s.length → (torchMul o s).isSome = true) ∧
    (∀ o s : List ℚ, o.length ≠ s.length → o.length ≠ 1 → s.length ≠ 1 →
      torchMul o s = none) := by
  constructor
  · intro o s h
    rw [torchMul, if_pos h]
    rfl
  · intro o s h h1 h2
    rw [torchMul, if_neg h, if_neg h1, if_neg h2]

/-- Witness for the amended C6 at concrete inputs: out-of-range scores of
equal length succeed; a 2-vs-3 length mismatch fails. -/
theorem combiner_failure_behavior_witness :
    (torchMul [(5 : ℚ)] [7]).isSome = true ∧
    torchMul [(1 : ℚ), 2] [1, 2, 3] = none :=
  ⟨combiner_failure_behavior.1 [(5 : ℚ)] [7] rfl,
   combiner_failure_behavior.2 [(1 : ℚ), 2] [1, 2, 3]
     (by decide) (by decide) (by decide)⟩

end Predator

namespace Predator

/-- C8: splitting the stacked per-point arrays at `len_src` is a
take/drop pair — concatenating source part and target part reconstructs
the stacked array, the source part keeps every stacked index `i < len_src`
unchanged, and entry `j` of the target part is stacked entry
`len_src + j`.  Applied with the same `len_src` to points, features,
overlap and saliency (lines 143–154), this keeps each point paired with
exactly its own feature vector and scores. -/
theorem splitStacked_pairing {α : Type} (k : ℕ) (l : List α) :
    (splitStacked k l).1 ++ (splitStacked k l).2 = l ∧
    (∀ i, i < k → ((splitStacked k l).1)[i]? = l[i]?) ∧
    (∀ j, ((splitStacked k l).2)[j]? = l[k + j]?) := by
  refine ⟨List.take_append_drop k l, ?_, ?_⟩
  · intro i hi
    show (l.take k)[i]? = l[i]?
    rw [List.getElem?_take, if_pos hi]
  · intro j
    exact List.getElem?_drop l k j

/-- Witness for C8 at a concrete stacked array split at `len_src = 2`. -/
theorem splitStacked_pairing_witness :
    (splitStacked 2 [(1 : ℕ), 2, 3]).1 ++ (splitStacked 2 [(1 : ℕ), 2, 3]).2
      = [1, 2, 3] ∧
    ((splitStacked 2 [(1 : ℕ), 2, 3]).1)[1]? = [(1 : ℕ), 2, 3][1]? ∧
    ((splitStacked 2 [(1 : ℕ), 2, 3]).2)[0]? = [(1 : ℕ), 2, 3][2 + 0]? :=
  ⟨(splitStacked_pairing 2 [1, 2, 3]).1,
   (splitStacked_pairing 2 [1, 2, 3]).2.1 1 (by decide),
   (splitStacked_pairing 2 [1, 2, 3]).2.2 0⟩

end Predator

namespace Visualizer

/-- C9: the constructed homogeneous matrix has last row `(0, 0, 0, 1)`;
applied to the homogeneous vector `(p, 1)` it yields exactly
`rot · p + trans` on the first three coordinates (and `1` on the fourth);
hence `source_transformed` (line 69) equals the homogeneous matrix applied
pointwise to the downsampled source points. -/
theorem homogeneousMatrix_correct (rot : Fin 3 → Fin 3 → ℚ)
    (trans : Fin 3 → ℚ) :
    (transformMatrix rot trans 3 0 = 0 ∧ transformMatrix rot trans 3 1 = 0 ∧
     transformMatrix rot trans 3 2 = 0 ∧ transformMatrix rot trans 3 3 = 1) ∧
    (∀ (p : Fin 3 → ℚ) (i : Fin 3),
      homApply (transformMatrix rot trans) p i.castSucc
        = rigidApply rot trans p i) ∧
    (∀ p : Fin 3 → ℚ, homApply (transformMatrix rot trans) p 3 = 1) ∧
    (∀ pts : List (Fin 3 → ℚ),
      srcTransformed rot trans pts
        = pts.map (fun p => fun i : Fin 3 =>
            homApply (transformMatrix rot trans) p i.castSucc)) := by
  have key : ∀ (p : Fin 3 → ℚ) (i : Fin 3),
      homApply (transformMatrix rot trans) p i.castSucc
        = rigidApply rot trans p i := by
    intro p i
    fin_cases i <;>
      simp [homApply, transformMatrix, homVec, rigidApply,
        Fin.sum_univ_four, Fin.sum_univ_three,
        show Fin.castSucc (0 : Fin 3) = (0 : Fin 4) from rfl,
        show Fin.castSucc (1 : Fin 3) = (1 : Fin 4) from rfl,
        show Fin.castSucc (2 : Fin 3) = (2 : Fin 4) from rfl]
  refine ⟨⟨rfl, rfl, rfl, rfl⟩, key, ?_, ?_⟩
  · intro p
    simp [homApply, transformMatrix, homVec, Fin.sum_univ_four]
  · intro pts
    unfold srcTransformed
    refine List.map_congr_left fun p _ => ?_
    funext i
    exact (key p i).symm

end Visualizer

namespace Visualizer

theorem strided_length_aux {α : Type} (d : ℕ) (hd : 1 ≤ d) :
    ∀ (n : ℕ) (l : List α), l.length ≤ n →
      (strided d l).length = (l.length + d - 1) / d := by
  intro n
  induction n with
  | zero =>
    intro l hl
    have hnil : l = [] := List.length_eq_zero.mp (by omega)
    subst hnil
    have h0 : (d - 1) / d = 0 := Nat.div_eq_of_lt (by omega)
    simp [strided, h0]
  | succ n ih =>
    intro l hl
    cases l with
    | nil =>
      have h0 : (d - 1) / d = 0 := Nat.div_eq_of_lt (by omega)
      simp [strided, h0]
    | cons x xs =>
      simp only [List.length_cons] at hl
      simp only [strided, List.length_cons]
      rw [ih (xs.drop (d - 1)) (by simp [List.length_drop]; omega),
        List.length_drop]
      rcases Nat.le_total (d - 1) xs.length with h | h
      · have e1 : xs.length - (d - 1) + d - 1 = xs.length := by omega
        have e2 : xs.length + 1 + d - 1 = xs.length + d := by omega
        rw [e1, e2, Nat.add_div_right _ (by omega : 0 < d)]
      · have e1 : xs.length - (d - 1) = 0 := by omega
        have e2 : (0 + d - 1) / d = 0 := Nat.div_eq_of_lt (by omega)
        have e3 : (xs.length + 1 + d - 1) / d = 1 :=
          Nat.div_eq_of_lt_le (by omega) (by omega)
        rw [e1, e2, e3]

theorem strided_getElem_aux {α : Type} (d : ℕ) (hd : 1 ≤ d) :
    ∀ (n : ℕ) (l : List α), l.length ≤ n → ∀ i : ℕ,
      (strided d l)[i]? = l[i * d]? := by
  intro n
  induction n with
  | zero =>
    intro l hl i
    have hnil : l = [] := List.length_eq_zero.mp (by omega)
    subst hnil
    simp [strided]
  | succ n ih =>
    intro l hl i
    cases l with
    | nil => simp [strided]
    | cons x xs =>
      simp only [List.length_cons] at hl
      simp only [strided]
      cases i with
      | zero => simp
      | succ i =>
        rw [List.getElem?_cons_succ,
          ih (xs.drop (d - 1)) (by simp [List.length_drop]; omega) i,
          List.getElem?_drop]
        have e : (i + 1) * d = (d - 1 + i * d) + 1 := by
          have hm : (i + 1) * d = i * d + d := by ring
          omega
        rw [e, List.getElem?_cons_succ]

/-- C10: for every downsample factor `d ≥ 1`, the stride slice
`pcd[::d]` has exactly `⌈N/d⌉ = (N + d - 1) / d` points, and its `i`-th
entry is the original entry at index `i · d` (in particular the output is
an order-preserving subsequence of the input). -/
theorem strided_spec {α : Type} (d : ℕ) (hd : 1 ≤ d) (l : List α) :
    (strided d l).length = (l.length + d - 1) / d ∧
    ∀ i : ℕ, (strided d l)[i]? = l[i * d]? :=
  ⟨strided_length_aux d hd l.length l le_rfl,
   fun i => strided_getElem_aux d hd l.length l le_rfl i⟩

/-- Witness for C10 at a concrete cloud of 5 points with factor 2. -/
theorem strided_spec_witness :
    (strided 2 [(10 : ℕ), 20, 30, 40, 50]).length = (5 + 2 - 1) / 2 ∧
    (strided 2 [(10 : ℕ), 20, 30, 40, 50])[1]?
      = [(10 : ℕ), 20, 30, 40, 50][1 * 2]? :=
  ⟨(strided_spec 2 (by decide) [(10 : ℕ), 20, 30, 40, 50]).1,
   (strided_spec 2 (by decide) [(10 : ℕ), 20, 30, 40, 50]).2 1⟩

end Visualizer
